import Mathlib

/-!
Shallow embedding of the matrix core of the Rust-Matrix-Project repository:
`src/matrix.rs` (the `Matrix` type, its constructor, accessors, row/column
iterators, parallel multiply, add, subtract, indexing and display) and
`src/operation.rs` (the `Operation` type, its compute/cache cycle and display).

Machine integers (`i32`) are modelled as `Int` with explicit two's-complement
wraparound (`wrap32`), matching Rust release-mode semantics.  Code that panics
(a failed `assert!`, `Vec` indexing out of bounds, `chunks_mut(0)`,
`Iterator::step_by(0)`) is modelled with `Except String`, carrying the panic
message.  The `RefCell<Option<Matrix>>` result cache of `Operation` is
modelled as an `Option Matrix` field, mutation becoming a functional update.
-/

namespace RustMatrix

/-- Two's-complement wraparound to the `i32` range, i.e. Rust release-mode
arithmetic on `i32`. -/
def wrap32 (x : Int) : Int :=
  (x + 2147483648) % 4294967296 - 2147483648

/-- Predicate: `x` is representable as an `i32`. -/
def isI32 (x : Int) : Prop :=
  -2147483648 ≤ x ∧ x < 2147483648

instance (x : Int) : Decidable (isI32 x) := by
  unfold isI32
  infer_instance

/-- Structure `Matrix` from `src/matrix.rs`: `rows: usize`, `cols: usize`,
`data: Vec<i32>` in row-major order. -/
structure Matrix where
  rows : Nat
  cols : Nat
  data : List Int
deriving DecidableEq

deriving instance DecidableEq for Except

/-- Constructor `Matrix::new(cols, rows, data)`: `assert_eq!(cols * rows, data.len())`,
then stores the fields verbatim.  The failed assertion (a panic) is modelled
as `none`. -/
def Matrix.new (cols rows : Nat) (data : List Int) : Option Matrix :=
  if cols * rows = data.length then
    some { rows := rows, cols := cols, data := data }
  else
    none

/-- The sequence produced by `Matrix::row_iter`'s iterator
`data.iter().skip(cols * row_num).take(cols)`. -/
def Matrix.rowSeq (m : Matrix) (r : Nat) : List Int :=
  (m.data.drop (m.cols * r)).take m.cols

/-- Method `Matrix::row_iter(row_num)`: `assert!(row_num < self.rows, "Row index out
of bounds")`, then `data.iter().skip(cols * row_num).take(cols)`. -/
def Matrix.row_iter (m : Matrix) (r : Nat) : Except String (List Int) :=
  if r < m.rows then .ok (m.rowSeq r) else .error "Row index out of bounds"

/-- The element sequence of Rust's `Iterator::step_by(k)` on a list, carried
out the way `StepBy` does it: a skip counter `n` counts how many elements to
discard before the next one is yielded, and after a yield the counter resets
to `k - 1`. -/
def stepByAux (k : Nat) : Nat → List Int → List Int
  | _, [] => []
  | 0, x :: xs => x :: stepByAux k (k - 1) xs
  | n + 1, _ :: xs => stepByAux k n xs

/-- The element sequence of Rust's `Iterator::step_by(k)` on a list: the
first element, then every `k`-th element after it. -/
def stepByGo (k : Nat) (l : List Int) : List Int :=
  stepByAux k 0 l

/-- Rust's `Iterator::step_by(k)`, which panics when `k == 0`. -/
def stepBy (k : Nat) (l : List Int) : Except String (List Int) :=
  if k = 0 then .error "assertion failed: step != 0" else .ok (stepByGo k l)

/-- The sequence produced by `Matrix::col_iter`'s iterator
`data.iter().skip(col_num).step_by(cols)` once the stride is known nonzero. -/
def Matrix.colSeq (m : Matrix) (c : Nat) : List Int :=
  stepByGo m.cols (m.data.drop c)

/-- Method `Matrix::col_iter(col_num)`: `assert!(col_num < self.cols, "Column index
out of bounds")`, then `data.iter().skip(col_num).step_by(cols)`. -/
def Matrix.col_iter (m : Matrix) (c : Nat) : Except String (List Int) :=
  if c < m.cols then stepBy m.cols (m.data.drop c)
  else .error "Column index out of bounds"

/-- The cell computation of `Matrix::mul_mat`:
`row_iter(i).zip(col_iter(j)).fold(0, |sum, (l, r)| sum + l * r)` with
wrapping `i32` arithmetic. -/
def dotWrap (xs ys : List Int) : Int :=
  (xs.zip ys).foldl (fun s p => wrap32 (s + wrap32 (p.1 * p.2))) 0

/-- The output buffer of `Matrix::mul_mat`: `self.rows` chunks of `rhs.cols`
cells, chunk `i` holding the cells of output row `i`.  Inside `mul_mat` the
iterator asserts always pass (`i < a.rows`, `j < b.cols`), so the iterators
are exactly `rowSeq`/`colSeq`. -/
def Matrix.mulData (a b : Matrix) : List Int :=
  (List.range a.rows).flatMap
    (fun i => (List.range b.cols).map (fun j => dotWrap (a.rowSeq i) (b.colSeq j)))

/-- Method `Matrix::mul_mat(rhs)`: `assert_eq!(self.cols, rhs.rows)`, then
`matr_data.chunks_mut(rhs.cols)` — which panics when `rhs.cols == 0` — then
one task per output row filling its chunk, and the assembled matrix with
`rows = self.rows`, `cols = rhs.cols`.  The row tasks write disjoint chunks,
so the parallel loop is modelled by its deterministic sequential result. -/
def Matrix.mul_mat (a b : Matrix) : Except String Matrix :=
  if a.cols = b.rows then
    if b.cols = 0 then .error "chunk size must be non-zero"
    else .ok { rows := a.rows, cols := b.cols, data := Matrix.mulData a b }
  else .error "assertion failed: self.cols == rhs.rows"

/-- Method `Matrix::add_mat(rhs)`: `assert_eq!(self.cols, rhs.cols)`,
`assert_eq!(self.rows, rhs.rows)`, then the elementwise sum
`data.iter().zip(rhs.data.iter()).map(|(a, b)| a + b)` with wrapping `i32`
addition. -/
def Matrix.add_mat (a b : Matrix) : Except String Matrix :=
  if a.cols = b.cols then
    if a.rows = b.rows then
      .ok { rows := a.rows, cols := a.cols,
            data := (a.data.zip b.data).map (fun p => wrap32 (p.1 + p.2)) }
    else .error "assertion failed: self.rows == rhs.rows"
  else .error "assertion failed: self.cols == rhs.cols"

/-- Method `Matrix::sub_mat(rhs)`: `assert_eq!(self.cols, rhs.cols)`,
`assert_eq!(self.rows, rhs.rows)`, then the elementwise difference with
wrapping `i32` subtraction. -/
def Matrix.sub_mat (a b : Matrix) : Except String Matrix :=
  if a.cols = b.cols then
    if a.rows = b.rows then
      .ok { rows := a.rows, cols := a.cols,
            data := (a.data.zip b.data).map (fun p => wrap32 (p.1 - p.2)) }
    else .error "assertion failed: self.rows == rhs.rows"
  else .error "assertion failed: self.cols == rhs.cols"

/-- Impl `Index<[usize; 2]>::index` for `Matrix`: asserts `index[0] < rows` with
message "Row index is greater than row dimension.", then `index[1] < cols`
with message "Column index is greater than column dimension.", then reads
`data[index[0] * cols + index[1]]` (a `Vec` access, which panics if the
length invariant is broken). -/
def Matrix.index (m : Matrix) (r c : Nat) : Except String Int :=
  if r < m.rows then
    if c < m.cols then
      match m.data[r * m.cols + c]? with
      | some v => .ok v
      | none => .error "index out of bounds"
    else .error "Column index is greater than column dimension."
  else .error "Row index is greater than row dimension."

/-- Impl `IndexMut<[usize; 2]>::index_mut` followed by a store: the same two
asserts with the same messages, then the write to
`data[index[0] * cols + index[1]]`. -/
def Matrix.index_set (m : Matrix) (r c : Nat) (v : Int) : Except String Matrix :=
  if r < m.rows then
    if c < m.cols then
      .ok { m with data := m.data.set (r * m.cols + c) v }
    else .error "Column index is greater than column dimension."
  else .error "Row index is greater than row dimension."

/-- One `write!(f, "{: >6} ", self[[row, col]])` of `Display for Matrix`: the
decimal rendering of the element, left-padded with spaces to width 6, then a
single space. -/
def padCell (v : Int) : String :=
  String.mk (List.replicate (6 - (toString v).length) ' ') ++ toString v ++ " "

/-- Impl `Display for Matrix`: for each row, each cell written with
`"{: >6} "`, then `writeln!` ends the row.  Inside the loop both indices are
in range, so `self[[row, col]]` is the row-major element. -/
def Matrix.display (m : Matrix) : String :=
  (List.range m.rows).foldl
    (fun acc r =>
      ((List.range m.cols).foldl
        (fun acc2 c => acc2 ++ padCell (m.data.getD (r * m.cols + c) 0)) acc) ++ "\n")
    ""

/-- Enum `Operator` from `src/operation.rs`. -/
inductive Operator where
  | Multiply
  | Add
  | Subtract
deriving DecidableEq

/-- Impl `Display for Operator`. -/
def Operator.display : Operator → String
  | .Multiply => "Multiplied by\n"
  | .Add => "Added to\n"
  | .Subtract => "Minus\n"

/-- Structure `Operation` from `src/operation.rs`; the `RefCell<Option<Matrix>>` result
cache is modelled as an `Option Matrix` field. -/
structure Operation where
  left_operand : Matrix
  operator : Operator
  right_operand : Matrix
  result : Option Matrix
deriving DecidableEq

/-- Method `Operation::do_operation`: selects `add_mat`/`sub_mat`/`mul_mat` on
`(left_operand, right_operand)` according to `operator`. -/
def Operation.do_operation (op : Operation) : Except String Matrix :=
  match op.operator with
  | .Add => op.left_operand.add_mat op.right_operand
  | .Subtract => op.left_operand.sub_mat op.right_operand
  | .Multiply => op.left_operand.mul_mat op.right_operand

/-- Method `Operation::do_operation_and_store`: computes `do_operation` and replaces
the cache contents with the result (`self.result.replace(Some(matr))`).  The
updated state is returned; a panic in `do_operation` propagates. -/
def Operation.do_operation_and_store (op : Operation) : Except String Operation :=
  (op.do_operation).map (fun matr => { op with result := some matr })

/-- Impl `Display for Operation`: left operand, blank line, operator line, blank
line, right operand; when the cache holds a matrix the whole output is
re-wrapped as `"\n{output}\nEquals\n\n{matr}"`. -/
def Operation.display (op : Operation) : String :=
  let base :=
    op.left_operand.display ++ "\n" ++ op.operator.display ++ "\n"
      ++ op.right_operand.display
  match op.result with
  | some matr => "\n" ++ base ++ "\n" ++ "Equals" ++ "\n\n" ++ matr.display
  | none => base

/-- A well-formed `Operation` whose shapes are compatible for `Multiply`
(`left.cols == right.rows`) but whose right operand has zero columns: inside
`mul_mat` the call `matr_data.chunks_mut(rhs.cols)` then panics. -/
def zeroColMulOp : Operation :=
  { left_operand := { rows := 1, cols := 1, data := [0] },
    operator := Operator.Multiply,
    right_operand := { rows := 1, cols := 0, data := [] },
    result := none }

/-! ### Helper lemmas -/

theorem wrap32_eq_self {x : Int} (h : isI32 x) : wrap32 x = x := by
  rcases h with ⟨h1, h2⟩
  unfold wrap32
  omega

theorem wrap32_roundtrip {x : Int} (y : Int) (h : isI32 x) :
    wrap32 (wrap32 (x + y) - y) = x := by
  rcases h with ⟨h1, h2⟩
  unfold wrap32
  omega

theorem getD_drop (l : List Int) (a n : Nat) :
    (l.drop a).getD n 0 = l.getD (a + n) 0 := by
  simp [List.getD_eq_getElem?_getD, List.getElem?_drop]

theorem dropTake (l : List Int) (a n : Nat) (h : a + n ≤ l.length) :
    (l.drop a).take n = (List.range n).map (fun i => l.getD (a + i) 0) := by
  apply List.ext_getElem
  · simp
    omega
  · intro i h1 h2
    have hi : i < n := by simpa using h2
    have hb : a + i < l.length := by omega
    simp [List.getElem_take, List.getElem_drop, List.getD_eq_getElem?_getD,
      List.getElem?_eq_getElem hb]

theorem stepByAux_skip (k : Nat) : ∀ (n : Nat) (l : List Int),
    stepByAux k n l = stepByAux k 0 (l.drop n) := by
  intro n l
  induction l generalizing n with
  | nil => cases n <;> rfl
  | cons x xs ih =>
    cases n with
    | zero => rfl
    | succ n => simpa [stepByAux] using ih n

theorem stepByGo_cons (k : Nat) (x : Int) (xs : List Int) :
    stepByGo k (x :: xs) = x :: stepByGo k (xs.drop (k - 1)) := by
  simp [stepByGo, stepByAux, stepByAux_skip]

theorem stepChar (cols : Nat) (hcols : 0 < cols) : ∀ (rows c : Nat) (l : List Int),
    c < cols → l.length = rows * cols →
    stepByGo cols (l.drop c) = (List.range rows).map (fun r => l.getD (r * cols + c) 0) := by
  intro rows
  induction rows with
  | zero =>
    intro c l _ hlen
    have : l = [] := List.eq_nil_of_length_eq_zero (by simpa using hlen)
    simp [this, stepByGo, stepByAux]
  | succ rows ih =>
    intro c l hc hlen
    have hcl : c < l.length := by
      have : cols ≤ (rows + 1) * cols := Nat.le_mul_of_pos_left cols (Nat.succ_pos rows)
      omega
    rw [List.drop_eq_getElem_cons hcl, stepByGo_cons, List.drop_drop]
    have harith : c + 1 + (cols - 1) = cols + c := by omega
    rw [harith]
    have hdroplen : (l.drop cols).length = rows * cols := by
      simp
      calc l.length - cols = (rows + 1) * cols - cols := by rw [hlen]
        _ = rows * cols := by ring_nf; omega
    rw [← List.drop_drop, ih c (l.drop cols) hc hdroplen]
    rw [List.range_succ_eq_map, List.map_cons, List.map_map]
    congr 1
    · simp [List.getD_eq_getElem?_getD, List.getElem?_eq_getElem hcl]
    · apply List.map_congr_left
      intro r _
      simp only [Function.comp]
      rw [getD_drop]
      congr 1
      simp only [Nat.succ_eq_add_one]
      ring

theorem rowSeq_char (m : Matrix) (hlen : m.data.length = m.rows * m.cols)
    (r : Nat) (hr : r < m.rows) :
    m.rowSeq r = (List.range m.cols).map (fun c => m.data.getD (r * m.cols + c) 0) := by
  unfold Matrix.rowSeq
  have hb : m.cols * r + m.cols ≤ m.data.length := by
    rw [hlen, Nat.mul_comm m.cols r]
    have h1 : r + 1 ≤ m.rows := hr
    have h2 : (r + 1) * m.cols ≤ m.rows * m.cols := Nat.mul_le_mul_right _ h1
    rw [Nat.add_mul] at h2
    omega
  rw [dropTake _ _ _ hb]
  apply List.map_congr_left
  intro c _
  congr 1
  ring

theorem colSeq_char (m : Matrix) (hlen : m.data.length = m.rows * m.cols)
    (c : Nat) (hc : c < m.cols) :
    m.colSeq c = (List.range m.rows).map (fun r => m.data.getD (r * m.cols + c) 0) := by
  exact stepChar m.cols (by omega) m.rows c m.data hc hlen

theorem index_bound {rows cols r c : Nat} (hr : r < rows) (hc : c < cols) :
    r * cols + c < rows * cols := by
  have h1 : r + 1 ≤ rows := hr
  have h2 : (r + 1) * cols ≤ rows * cols := Nat.mul_le_mul_right _ h1
  rw [Nat.add_mul] at h2
  omega

theorem index_in_range (m : Matrix) (r c : Nat)
    (hlen : m.data.length = m.rows * m.cols) (hr : r < m.rows) (hc : c < m.cols) :
    m.index r c = .ok (m.data.getD (r * m.cols + c) 0) := by
  have hb : r * m.cols + c < m.data.length := by
    rw [hlen]; exact index_bound hr hc
  simp [Matrix.index, hr, hc, List.getElem?_eq_getElem hb,
    List.getD_eq_getElem?_getD]

theorem zipmap_getD (g : Int × Int → Int) (xs ys : List Int) (i : Nat)
    (hi : i < xs.length) (hlen : xs.length = ys.length) :
    ((xs.zip ys).map g).getD i 0 = g (xs.getD i 0, ys.getD i 0) := by
  have hz : i < ((xs.zip ys).map g).length := by
    simp [List.length_zip]
    omega
  have hy : i < ys.length := by omega
  rw [List.getD_eq_getElem _ _ hz, List.getElem_map, List.getElem_zip,
    List.getD_eq_getElem _ _ hi, List.getD_eq_getElem _ _ hy]

theorem mulData_length (a b : Matrix) : (a.mulData b).length = a.rows * b.cols := by
  unfold Matrix.mulData
  rw [List.length_flatMap]
  have : (List.map (List.length ∘ fun i =>
      (List.range b.cols).map (fun j => dotWrap (a.rowSeq i) (b.colSeq j)))
      (List.range a.rows)) = List.replicate a.rows b.cols := by
    rw [show (List.length ∘ fun i =>
        (List.range b.cols).map (fun j => dotWrap (a.rowSeq i) (b.colSeq j)))
        = fun _ => b.cols from funext (fun i => by simp)]
    rw [List.map_const', List.length_range]
  rw [this, List.sum_replicate, smul_eq_mul]

theorem flatMap_range_getD (C : Nat) :
    ∀ (R : Nat) (f : Nat → Nat → Int) (i j : Nat), i < R → j < C →
    ((List.range R).flatMap (fun r => (List.range C).map (f r))).getD (i * C + j) 0
      = f i j := by
  intro R
  induction R with
  | zero =>
    intro f i j hi _
    exact absurd hi (Nat.not_lt_zero i)
  | succ R ih =>
    intro f i j hi hj
    rw [List.range_succ_eq_map, List.flatMap_cons, List.flatMap_map]
    cases i with
    | zero =>
      have hjlen : 0 * C + j < (List.map (f 0) (List.range C)).length := by
        simp
        omega
      rw [List.getD_append _ _ _ _ hjlen, List.getD_eq_getElem _ _ hjlen]
      simp [hj]
    | succ i =>
      have hlen : (List.map (f 0) (List.range C)).length ≤ (i + 1) * C + j := by
        simp [Nat.add_mul]
        omega
      rw [List.getD_append_right _ _ _ _ hlen]
      have harith : (i + 1) * C + j - (List.map (f 0) (List.range C)).length
          = i * C + j := by
        simp [Nat.add_mul]
        omega
      rw [harith]
      exact ih (fun r => f (r + 1)) i j (by omega) hj

theorem mulData_getD (a b : Matrix)
    (ha : a.data.length = a.rows * a.cols) (hb : b.data.length = b.rows * b.cols)
    (hcompat : a.cols = b.rows) (i j : Nat) (hi : i < a.rows) (hj : j < b.cols) :
    (a.mulData b).getD (i * b.cols + j) 0
      = (List.range a.cols).foldl
          (fun s k => wrap32 (s + wrap32
            (a.data.getD (i * a.cols + k) 0 * b.data.getD (k * b.cols + j) 0))) 0 := by
  unfold Matrix.mulData
  rw [flatMap_range_getD b.cols a.rows _ i j hi hj]
  rw [rowSeq_char a ha i hi, colSeq_char b hb j hj]
  unfold dotWrap
  rw [show List.range b.rows = List.range a.cols from by rw [hcompat]]
  rw [List.zip_map', List.foldl_map]

theorem addsub_list : ∀ (xs ys : List Int), xs.length = ys.length →
    (∀ x ∈ xs, isI32 x) →
    (((xs.zip ys).map (fun p => wrap32 (p.1 + p.2))).zip ys).map
        (fun p => wrap32 (p.1 - p.2)) = xs := by
  intro xs
  induction xs with
  | nil => intro ys _ _; simp
  | cons x xs ih =>
    intro ys hlen hrange
    cases ys with
    | nil => simp at hlen
    | cons y ys =>
      simp only [List.zip_cons_cons, List.map_cons]
      congr 1
      · exact wrap32_roundtrip y (hrange x (List.mem_cons_self x xs))
      · exact ih ys (by simpa using hlen)
          (fun z hz => hrange z (List.mem_cons_of_mem x hz))

theorem foldl_append_data (f : Nat → String) (l : List Nat) (init : String) :
    (l.foldl (fun acc x => acc ++ f x) init).data
      = init.data ++ (l.map (fun x => (f x).data)).flatten := by
  induction l generalizing init with
  | nil => simp
  | cons x xs ih =>
    simp only [List.foldl_cons, List.map_cons, List.flatten_cons]
    rw [ih, String.data_append, List.append_assoc]

theorem display_data (m : Matrix) :
    m.display.data
      = ((List.range m.rows).map (fun r =>
          ((List.range m.cols).map (fun c =>
            (padCell (m.data.getD (r * m.cols + c) 0)).data)).flatten
            ++ ['\n'])).flatten := by
  unfold Matrix.display
  have hrow : ∀ (L : List Nat) (init : String),
      (L.foldl (fun acc r =>
        ((List.range m.cols).foldl
          (fun acc2 c => acc2 ++ padCell (m.data.getD (r * m.cols + c) 0)) acc)
          ++ "\n") init).data
      = init.data ++ (L.map (fun r =>
          ((List.range m.cols).map (fun c =>
            (padCell (m.data.getD (r * m.cols + c) 0)).data)).flatten
            ++ ['\n'])).flatten := by
    intro L
    induction L with
    | nil => intro init; simp
    | cons r rs ih =>
      intro init
      simp only [List.foldl_cons, List.map_cons, List.flatten_cons]
      rw [ih, String.data_append,
        foldl_append_data (fun c => padCell (m.data.getD (r * m.cols + c) 0))]
      simp [List.append_assoc]
  rw [hrow]
  rfl

/-! ### Claims -/

/-- C2: construction of a Matrix succeeds if and only if
`data.length == cols * rows` (mismatched lengths fail), and after a
successful construction `get(r, c)` returns `data[r * cols + c]` for every
`r < rows` and `c < cols`. -/
theorem new_index_C2 :
    (∀ (cols rows : Nat) (data : List Int),
      (Matrix.new cols rows data).isSome ↔ cols * rows = data.length)
    ∧ ∀ (cols rows : Nat) (data : List Int) (m : Matrix),
        Matrix.new cols rows data = some m →
        ∀ (r c : Nat), r < rows → c < cols →
          m.index r c = .ok (data.getD (r * cols + c) 0) := by
  constructor
  · intro cols rows data
    unfold Matrix.new
    by_cases h : cols * rows = data.length <;> simp [h]
  · intro cols rows data m hm r c hr hc
    unfold Matrix.new at hm
    by_cases h : cols * rows = data.length
    · rw [if_pos h] at hm
      obtain rfl : ({ rows := rows, cols := cols, data := data } : Matrix) = m :=
        Option.some.injEq .. ▸ hm
      exact index_in_range _ r c (by simpa using h.symm.trans (by ring_nf)) hr hc
    · rw [if_neg h] at hm
      exact absurd hm (by simp)

/-- C2 witness: a 3-column, 2-row matrix built from `[1,2,3,4,5,6]`
constructs, and reading position `(1, 2)` yields element `data[1*3+2] = 6`. -/
theorem new_index_C2_witness :
    Matrix.index { rows := 2, cols := 3, data := [1, 2, 3, 4, 5, 6] } 1 2
      = .ok 6 := by
  exact new_index_C2.2 3 2 [1, 2, 3, 4, 5, 6]
    { rows := 2, cols := 3, data := [1, 2, 3, 4, 5, 6] }
    (by decide) 1 2 (by decide) (by decide)

/-- C5: `get(r, c)` and `set(r, c, v)` fail whenever `r ≥ rows` or
`c ≥ cols`, deterministically returning an error rather than a value, and
the row-out-of-range message differs from the column-out-of-range one. -/
theorem bounds_C5 (m : Matrix) (r c : Nat) (v : Int) :
    (m.rows ≤ r →
      m.index r c = .error "Row index is greater than row dimension."
      ∧ m.index_set r c v = .error "Row index is greater than row dimension.")
    ∧ (r < m.rows → m.cols ≤ c →
      m.index r c = .error "Column index is greater than column dimension."
      ∧ m.index_set r c v
          = .error "Column index is greater than column dimension.")
    ∧ ("Row index is greater than row dimension."
        ≠ "Column index is greater than column dimension.") := by
  refine ⟨fun h => ?_, fun h1 h2 => ?_, by decide⟩
  · have : ¬ r < m.rows := by omega
    simp [Matrix.index, Matrix.index_set, this]
  · have : ¬ c < m.cols := by omega
    simp [Matrix.index, Matrix.index_set, h1, this]

/-- C5 witness: on a 1×1 matrix, reading row 1 gives the row error and
writing column 1 gives the column error. -/
theorem bounds_C5_witness :
    Matrix.index { rows := 1, cols := 1, data := [0] } 1 0
      = .error "Row index is greater than row dimension."
    ∧ Matrix.index_set { rows := 1, cols := 1, data := [0] } 0 1 5
      = .error "Column index is greater than column dimension." :=
  ⟨((bounds_C5 { rows := 1, cols := 1, data := [0] } 1 0 5).1 (by decide)).1,
   ((bounds_C5 { rows := 1, cols := 1, data := [0] } 0 1 5).2.1
      (by decide) (by decide)).2⟩

/-- C6: `row(r)` with `r < rows` yields exactly the `cols` elements of
logical row `r` in column order and fails for `r ≥ rows`; `col(c)` with
`c < cols` yields exactly the `rows` elements of logical column `c` by
striding the buffer with step `cols` from offset `c` and fails for
`c ≥ cols`; on `cols = 3`, `rows = 2`, `data = [1,2,3,4,5,6]` the rows are
`[1,2,3]`, `[4,5,6]` and the columns `[1,4]`, `[2,5]`, `[3,6]`. -/
theorem iters_C6 (m : Matrix) (hlen : m.data.length = m.rows * m.cols) :
    (∀ r, r < m.rows →
      m.row_iter r
        = .ok ((List.range m.cols).map (fun c => m.data.getD (r * m.cols + c) 0)))
    ∧ (∀ r, m.rows ≤ r → m.row_iter r = .error "Row index out of bounds")
    ∧ (∀ c, c < m.cols →
      m.col_iter c
        = .ok ((List.range m.rows).map (fun r => m.data.getD (r * m.cols + c) 0)))
    ∧ (∀ c, m.cols ≤ c → m.col_iter c = .error "Column index out of bounds")
    ∧ (Matrix.row_iter { rows := 2, cols := 3, data := [1, 2, 3, 4, 5, 6] } 0
        = .ok [1, 2, 3]
      ∧ Matrix.row_iter { rows := 2, cols := 3, data := [1, 2, 3, 4, 5, 6] } 1
        = .ok [4, 5, 6]
      ∧ Matrix.col_iter { rows := 2, cols := 3, data := [1, 2, 3, 4, 5, 6] } 0
        = .ok [1, 4]
      ∧ Matrix.col_iter { rows := 2, cols := 3, data := [1, 2, 3, 4, 5, 6] } 1
        = .ok [2, 5]
      ∧ Matrix.col_iter { rows := 2, cols := 3, data := [1, 2, 3, 4, 5, 6] } 2
        = .ok [3, 6]) := by
  refine ⟨fun r hr => ?_, fun r hr => ?_, fun c hc => ?_, fun c hc => ?_, by decide⟩
  · rw [Matrix.row_iter, if_pos hr, rowSeq_char m hlen r hr]
  · rw [Matrix.row_iter, if_neg (by omega)]
  · have hpos : m.cols ≠ 0 := by omega
    rw [Matrix.col_iter, if_pos hc, stepBy, if_neg hpos,
      stepChar m.cols (by omega) m.rows c m.data hc hlen]
  · rw [Matrix.col_iter, if_neg (by omega)]

/-- C6 witness: the characterization applied to the 3×2 example matrix,
reading row 1 and column 2. -/
theorem iters_C6_witness :
    Matrix.row_iter { rows := 2, cols := 3, data := [1, 2, 3, 4, 5, 6] } 1
      = .ok [4, 5, 6]
    ∧ Matrix.col_iter { rows := 2, cols := 3, data := [1, 2, 3, 4, 5, 6] } 2
      = .ok [3, 6] :=
  ⟨(iters_C6 { rows := 2, cols := 3, data := [1, 2, 3, 4, 5, 6] }
      (by decide)).1 1 (by decide),
   (iters_C6 { rows := 2, cols := 3, data := [1, 2, 3, 4, 5, 6] }
      (by decide)).2.2.1 2 (by decide)⟩

/-- C10: for a Matrix satisfying the length invariant and `c < cols`, the
stride of `col(c)` is never zero — the `step_by(0)` panic branch is
unreachable — and the strided traversal yields exactly `rows` elements. -/
theorem col_total_C10 (m : Matrix) (c : Nat)
    (hlen : m.data.length = m.rows * m.cols) (hc : c < m.cols) :
    0 < m.cols
    ∧ stepBy m.cols (m.data.drop c) = .ok (stepByGo m.cols (m.data.drop c))
    ∧ ∃ l, m.col_iter c = .ok l ∧ l.length = m.rows := by
  have hpos : 0 < m.cols := by omega
  refine ⟨hpos, by rw [stepBy, if_neg (by omega)], ?_⟩
  refine ⟨(List.range m.rows).map (fun r => m.data.getD (r * m.cols + c) 0), ?_, by simp⟩
  rw [Matrix.col_iter, if_pos hc, stepBy, if_neg (by omega),
    stepChar m.cols hpos m.rows c m.data hc hlen]

/-- C10 witness: on the 3×2 example matrix, column 1 is produced totally,
with 2 elements. -/
theorem col_total_C10_witness :
    stepBy 3 (List.drop 1 [1, 2, 3, 4, 5, 6])
      = .ok (stepByGo 3 (List.drop 1 [1, 2, 3, 4, 5, 6]))
    ∧ ∃ l, Matrix.col_iter { rows := 2, cols := 3, data := [1, 2, 3, 4, 5, 6] } 1
        = .ok l ∧ l.length = 2 :=
  ⟨(col_total_C10 { rows := 2, cols := 3, data := [1, 2, 3, 4, 5, 6] } 1
      (by decide) (by decide)).2.1,
   (col_total_C10 { rows := 2, cols := 3, data := [1, 2, 3, 4, 5, 6] } 1
      (by decide) (by decide)).2.2⟩

/-- C3: `add` and `subtract` require equal shapes and fail otherwise; on
success they produce a new Matrix of the same shape whose element `(i, j)` is
`A[i,j] + B[i,j]` respectively `A[i,j] - B[i,j]` in wrapping `i32`
arithmetic (and, being pure, mutate neither operand). -/
theorem add_sub_C3 (a b : Matrix)
    (ha : a.data.length = a.rows * a.cols) (hb : b.data.length = b.rows * b.cols) :
    (¬(a.rows = b.rows ∧ a.cols = b.cols) →
      (∃ e, a.add_mat b = .error e) ∧ (∃ e, a.sub_mat b = .error e))
    ∧ (a.rows = b.rows → a.cols = b.cols →
      ∃ s d, a.add_mat b = .ok s ∧ a.sub_mat b = .ok d
        ∧ s.rows = a.rows ∧ s.cols = a.cols ∧ d.rows = a.rows ∧ d.cols = a.cols
        ∧ ∀ r c, r < a.rows → c < a.cols →
            s.index r c = .ok (wrap32 (a.data.getD (r * a.cols + c) 0
                + b.data.getD (r * a.cols + c) 0))
            ∧ d.index r c = .ok (wrap32 (a.data.getD (r * a.cols + c) 0
                - b.data.getD (r * a.cols + c) 0))) := by
  constructor
  · intro hne
    by_cases hcc : a.cols = b.cols
    · have hrr : ¬ a.rows = b.rows := fun h => hne ⟨h, hcc⟩
      exact ⟨⟨_, by rw [Matrix.add_mat, if_pos hcc, if_neg hrr]⟩,
             ⟨_, by rw [Matrix.sub_mat, if_pos hcc, if_neg hrr]⟩⟩
    · exact ⟨⟨_, by rw [Matrix.add_mat, if_neg hcc]⟩,
             ⟨_, by rw [Matrix.sub_mat, if_neg hcc]⟩⟩
  · intro hr hc
    have hdlen : a.data.length = b.data.length := by rw [ha, hb, hr, hc]
    have hslen : ∀ (g : Int × Int → Int),
        ((a.data.zip b.data).map g).length = a.rows * a.cols := by
      intro g
      simp only [List.length_map, List.length_zip]
      rw [← hdlen, min_self, ha]
    refine ⟨{ rows := a.rows, cols := a.cols, data := (a.data.zip b.data).map (fun p => wrap32 (p.1 + p.2)) }, { rows := a.rows, cols := a.cols, data := (a.data.zip b.data).map (fun p => wrap32 (p.1 - p.2)) }, by rw [Matrix.add_mat, if_pos hc, if_pos hr], by rw [Matrix.sub_mat, if_pos hc, if_pos hr], rfl, rfl, rfl, rfl, fun r c hrr hcc => ?_⟩
    have hi : r * a.cols + c < a.data.length := by
      rw [ha]; exact index_bound hrr hcc
    constructor
    · have h1 : Matrix.index { rows := a.rows, cols := a.cols, data := (a.data.zip b.data).map (fun p => wrap32 (p.1 + p.2)) } r c = Except.ok (((a.data.zip b.data).map (fun p => wrap32 (p.1 + p.2))).getD (r * a.cols + c) 0) :=
        index_in_range _ r c (hslen _) hrr hcc
      rw [h1, zipmap_getD (fun p => wrap32 (p.1 + p.2)) a.data b.data _ hi hdlen]
    · have h1 : Matrix.index { rows := a.rows, cols := a.cols, data := (a.data.zip b.data).map (fun p => wrap32 (p.1 - p.2)) } r c = Except.ok (((a.data.zip b.data).map (fun p => wrap32 (p.1 - p.2))).getD (r * a.cols + c) 0) :=
        index_in_range _ r c (hslen _) hrr hcc
      rw [h1, zipmap_getD (fun p => wrap32 (p.1 - p.2)) a.data b.data _ hi hdlen]

/-- C3 witness: a 1×2 by 2×1 shape mismatch fails, and in
`[[1,2],[3,4]] + [[10,20],[30,40]]` the `(1,1)` entry of the sum is `44`. -/
theorem add_sub_C3_witness :
    (∃ e, Matrix.add_mat { rows := 1, cols := 2, data := [1, 2] } { rows := 2, cols := 1, data := [1, 2] } = .error e)
    ∧ Matrix.index { rows := 2, cols := 2, data := [11, 22, 33, 44] } 1 1 = .ok 44 := by
  constructor
  · exact ((add_sub_C3 { rows := 1, cols := 2, data := [1, 2] }
      { rows := 2, cols := 1, data := [1, 2] } (by decide) (by decide)).1
      (by decide)).1
  · obtain ⟨s, d, hs, hd, _, _, _, _, h⟩ :=
      (add_sub_C3 { rows := 2, cols := 2, data := [1, 2, 3, 4] }
        { rows := 2, cols := 2, data := [10, 20, 30, 40] }
        (by decide) (by decide)).2 rfl rfl
    have heval : Matrix.add_mat { rows := 2, cols := 2, data := [1, 2, 3, 4] }
        { rows := 2, cols := 2, data := [10, 20, 30, 40] }
        = .ok { rows := 2, cols := 2, data := [11, 22, 33, 44] } := by decide
    rw [hs] at heval
    have hsv : s = { rows := 2, cols := 2, data := [11, 22, 33, 44] } :=
      Except.ok.injEq .. ▸ heval
    have h11 := (h 1 1 (by decide) (by decide)).1
    rw [hsv] at h11
    exact h11.trans (by decide)

/-- C1: `multiply` requires `A.cols == B.rows` and fails otherwise; any
successful product has `rows = A.rows`, `cols = B.cols` and element `(i, j)`
equal to the wrapping-`i32` sum over `k` of `A[i,k] * B[k,j]`; in particular
`[[1,2,3],[4,5,6]] × [[1,2],[3,4],[5,6]] = [[22,28],[49,64]]`. -/
theorem mul_C1 (a b : Matrix)
    (ha : a.data.length = a.rows * a.cols) (hb : b.data.length = b.rows * b.cols) :
    (a.cols ≠ b.rows → a.mul_mat b = .error "assertion failed: self.cols == rhs.rows")
    ∧ (∀ m, a.mul_mat b = .ok m → m.rows = a.rows ∧ m.cols = b.cols ∧
        ∀ i j, i < a.rows → j < b.cols →
          m.index i j = .ok ((List.range a.cols).foldl
            (fun s k => wrap32 (s + wrap32
              (a.data.getD (i * a.cols + k) 0 * b.data.getD (k * b.cols + j) 0))) 0))
    ∧ Matrix.mul_mat { rows := 2, cols := 3, data := [1, 2, 3, 4, 5, 6] } { rows := 3, cols := 2, data := [1, 2, 3, 4, 5, 6] } = .ok { rows := 2, cols := 2, data := [22, 28, 49, 64] } := by
  refine ⟨fun hne => by rw [Matrix.mul_mat, if_neg hne], fun m hm => ?_, by decide⟩
  rw [Matrix.mul_mat] at hm
  by_cases hcompat : a.cols = b.rows
  · rw [if_pos hcompat] at hm
    by_cases hz : b.cols = 0
    · rw [if_pos hz] at hm
      exact absurd hm (by simp)
    · rw [if_neg hz] at hm
      obtain rfl : ({ rows := a.rows, cols := b.cols, data := a.mulData b } : Matrix) = m :=
        Except.ok.injEq .. ▸ hm
      refine ⟨rfl, rfl, fun i j hi hj => ?_⟩
      have h1 : Matrix.index { rows := a.rows, cols := b.cols, data := a.mulData b } i j = Except.ok ((a.mulData b).getD (i * b.cols + j) 0) :=
        index_in_range { rows := a.rows, cols := b.cols, data := a.mulData b } i j (mulData_length a b) hi hj
      rw [h1, mulData_getD a b ha hb hcompat i j hi hj]
  · rw [if_neg hcompat] at hm
    exact absurd hm (by simp)

/-- C1 witness: a 2×3 by 2×2 product fails the inner-dimension assertion. -/
theorem mul_C1_witness :
    Matrix.mul_mat { rows := 2, cols := 3, data := [1, 2, 3, 4, 5, 6] } { rows := 2, cols := 2, data := [1, 2, 3, 4] } = .error "assertion failed: self.cols == rhs.rows" :=
  (mul_C1 { rows := 2, cols := 3, data := [1, 2, 3, 4, 5, 6] }
    { rows := 2, cols := 2, data := [1, 2, 3, 4] } (by decide) (by decide)).1
    (by decide)

/-- C4: for matrices of identical shape (with the length invariant and `A`'s
entries in `i32` range), `A.add(B).subtract(B) == A` exactly, even in
wraparound arithmetic. -/
theorem addsub_C4 (a b : Matrix) (hr : a.rows = b.rows) (hc : a.cols = b.cols)
    (ha : a.data.length = a.rows * a.cols) (hb : b.data.length = b.rows * b.cols)
    (hrange : ∀ x ∈ a.data, isI32 x) :
    (a.add_mat b).bind (fun s => s.sub_mat b) = .ok a := by
  have hdlen : a.data.length = b.data.length := by rw [ha, hb, hr, hc]
  rw [Matrix.add_mat, if_pos hc, if_pos hr]
  show Matrix.sub_mat { rows := a.rows, cols := a.cols, data := (a.data.zip b.data).map (fun p => wrap32 (p.1 + p.2)) } b = .ok a
  rw [Matrix.sub_mat]
  simp only [if_pos hc, if_pos hr]
  rw [addsub_list a.data b.data hdlen hrange]

/-- C4 witness: `[[5,7]] + [[1,2]] - [[1,2]] = [[5,7]]`. -/
theorem addsub_C4_witness :
    (Matrix.add_mat { rows := 1, cols := 2, data := [5, 7] } { rows := 1, cols := 2, data := [1, 2] }).bind (fun s => s.sub_mat { rows := 1, cols := 2, data := [1, 2] }) = .ok { rows := 1, cols := 2, data := [5, 7] } :=
  addsub_C4 { rows := 1, cols := 2, data := [5, 7] }
    { rows := 1, cols := 2, data := [1, 2] }
    rfl rfl (by decide) (by decide) (by decide)


/-- C7: an Operation displays, in order, the left operand, the operator line
("Multiplied by" / "Added to" / "Minus"), the right operand, and an "Equals"
section followed by the cached result exactly when the cache is populated;
with an empty cache the Equals section is omitted and display still
succeeds. -/
theorem display_C7 (op : Operation) :
    (op.result = none →
      op.display = op.left_operand.display ++ "\n" ++ op.operator.display
        ++ "\n" ++ op.right_operand.display)
    ∧ (∀ m, op.result = some m →
      op.display = "\n" ++ (op.left_operand.display ++ "\n" ++ op.operator.display
        ++ "\n" ++ op.right_operand.display) ++ "\n" ++ "Equals" ++ "\n\n" ++ m.display)
    ∧ Operator.Multiply.display = "Multiplied by\n"
    ∧ Operator.Add.display = "Added to\n"
    ∧ Operator.Subtract.display = "Minus\n" := by
  refine ⟨fun hn => ?_, fun m hm => ?_, rfl, rfl, rfl⟩
  · simp [Operation.display, hn]
  · simp [Operation.display, hm]

/-- C7 witness: a 1×1 add Operation with an empty cache displays without any
Equals section. -/
theorem display_C7_witness :
    Operation.display { left_operand := { rows := 1, cols := 1, data := [1] }, operator := Operator.Add, right_operand := { rows := 1, cols := 1, data := [2] }, result := none } = Matrix.display { rows := 1, cols := 1, data := [1] } ++ "\n" ++ Operator.display Operator.Add ++ "\n" ++ Matrix.display { rows := 1, cols := 1, data := [2] } :=
  (display_C7 { left_operand := { rows := 1, cols := 1, data := [1] }, operator := Operator.Add, right_operand := { rows := 1, cols := 1, data := [2] }, result := none }).1 rfl

/-- C8 counterexample: `zeroColMulOp` has operand shapes compatible with its
`Multiply` operator (`left.cols == right.rows`), yet `compute_and_store`
panics in `chunks_mut(0)` and stores nothing, so the claim's universal
statement fails at this Operation. -/
theorem store_C8_counterexample :
    zeroColMulOp.left_operand.cols = zeroColMulOp.right_operand.rows
    ∧ zeroColMulOp.do_operation_and_store = .error "chunk size must be non-zero" :=
  ⟨rfl, rfl⟩

/-- C8 (amended): for every Operation whose `compute()` succeeds — operand
shapes compatible and, for `Multiply`, a right operand with at least one
column — `compute_and_store` overwrites the cache cell with the computed
matrix and leaves the left operand, operator and right operand unchanged. -/
theorem store_C8 (op : Operation) (m : Matrix) (h : op.do_operation = .ok m) :
    op.do_operation_and_store = .ok { left_operand := op.left_operand, operator := op.operator, right_operand := op.right_operand, result := some m } := by
  rw [Operation.do_operation_and_store, h]
  rfl

/-- C8 witness: storing over an already-populated cache replaces the old
cached matrix `[[99]]` with the computed sum `[[3]]` and keeps the other
fields. -/
theorem store_C8_witness :
    Operation.do_operation_and_store { left_operand := { rows := 1, cols := 1, data := [1] }, operator := Operator.Add, right_operand := { rows := 1, cols := 1, data := [2] }, result := some { rows := 1, cols := 1, data := [99] } } = .ok { left_operand := { rows := 1, cols := 1, data := [1] }, operator := Operator.Add, right_operand := { rows := 1, cols := 1, data := [2] }, result := some { rows := 1, cols := 1, data := [3] } } :=
  store_C8 { left_operand := { rows := 1, cols := 1, data := [1] }, operator := Operator.Add, right_operand := { rows := 1, cols := 1, data := [2] }, result := some { rows := 1, cols := 1, data := [99] } } { rows := 1, cols := 1, data := [3] } (by decide)

/-- C9: a Matrix displays as exactly `rows` lines, each line the `cols`
cells in order, each cell the element's decimal form right-aligned by left
space-padding to width 6 followed by exactly one separating space (so each
cell is at least 7 characters), and each line terminated by a line break. -/
theorem display_C9 (m : Matrix) :
    m.display.data = ((List.range m.rows).map (fun r => ((List.range m.cols).map (fun c => (padCell (m.data.getD (r * m.cols + c) 0)).data)).flatten ++ ['\n'])).flatten
    ∧ ∀ v : Int, ((padCell v).data = List.replicate (6 - (toString v).length) ' ' ++ (toString v).data ++ [' '] ∧ 7 ≤ (padCell v).data.length) := by
  refine ⟨display_data m, fun v => ⟨?_, ?_⟩⟩
  · rw [padCell, String.data_append, String.data_append]
  · rw [padCell, String.data_append, String.data_append]
    have hn : (toString v).length = (toString v).data.length := rfl
    simp only [List.length_append, List.length_replicate, List.length_singleton]
    omega

end RustMatrix
